import Mathlib

/-!
Verification of the best-model selection and ranking pipeline of the
paper-prep repository (src/model_search/*, src/optuna_plotting/*, src/main.py).

Shallow embedding conventions:
* pathlib paths are lists of path components (`FPath`); sorting paths
  compares the component lists (Path.__lt__ compares the parts tuple),
  `p.parent` drops the last component, `p.name` is the last component;
* pandas dataframes are a list of column names plus a list of rows; scalar
  metric values are modelled as integers (reals in the source), the `version`
  column is carried as a string label on each row; `df.sort_values` is a stable
  sort by the lexicographic comparator over the requested columns;
* Python's substring test `a in b` is `strHasSub b a`;
* filesystem state is explicit (lists of directories, files, symlinks);
* code that can raise returns `Except`.
-/

/-- Filesystem paths as lists of components (embedding of pathlib.Path). -/
abbrev FPath := List String

/-- Last path component, i.e. pathlib's `p.name` (empty string for the root). -/
def nameOf (p : FPath) : String := p.getLastD ""

/-- Parent directory, i.e. pathlib's `p.parent`. -/
def parentOf (p : FPath) : FPath := p.dropLast

/-- Joined string form of a path, as `str(p)` for a POSIX path. -/
def joinPath (p : FPath) : String := String.intercalate "/" p

/-- Boolean test that one character list is a prefix of another. -/
def prefixOfB : List Char → List Char → Bool
  | [], _ => true
  | _ :: _, [] => false
  | a :: as, b :: bs => a = b && prefixOfB as bs

/-- Boolean test that one character list occurs contiguously inside another. -/
def infixOfB (nd : List Char) : List Char → Bool
  | [] => nd.isEmpty
  | c :: rest => prefixOfB nd (c :: rest) || infixOfB nd rest

/-- Embedding of the Python substring test `sub in s`. -/
def strHasSub (s sub : String) : Bool := infixOfB sub.toList s.toList

/-- Lexicographic comparison of character lists (Python string `<=`). -/
def strLeList : List Char → List Char → Bool
  | [], _ => true
  | _ :: _, [] => false
  | a :: as, b :: bs => if a = b then strLeList as bs else decide (a < b)

/-- Embedding of Python string comparison `s <= t`. -/
def strLe (s t : String) : Bool := strLeList s.toList t.toList

/-- Path ordering used by `list.sort()` on pathlib paths: Path.__lt__
compares the tuples of path components, so the order is lexicographic on the
component lists, each component compared as a string (for unequal heads the
non-strict and strict string comparisons agree). -/
def pathLe : FPath → FPath → Bool
  | [], _ => true
  | _ :: _, [] => false
  | a :: as, b :: bs => if a = b then pathLe as bs else strLe a b

/-- Stable insertion of an element into a list relative to a boolean
comparator. -/
def insertSorted (le : α → α → Bool) (a : α) : List α → List α
  | [] => [a]
  | b :: l => if le a b then a :: b :: l else b :: insertSorted le a l

/-- Stable sort by a boolean comparator.  Both pandas `sort_values` (a stable
lexsort) and Python's `list.sort` (stable timsort) produce, for a total
transitive comparator, the unique stable sorted permutation, which this
insertion sort also produces. -/
def sortBy (le : α → α → Bool) : List α → List α
  | [] => []
  | a :: l => insertSorted le a (sortBy le l)

/-! ## model_search_base.py -/

/-- Embedding of ModelSearchBase._get_log_dirs (model_search_base.py lines
14-35).  The filesystem below start_path is given as the list of its regular
files (what `start_path.rglob("*")` filtered by `is_file()` yields).  The
source collects `p.parent.parent` of each file whose name contains
"tfevents" into a set, turns the set into a list and sorts it. -/
def get_log_dirs (files : List FPath) : List FPath :=
  sortBy pathLe
    (((files.filter (fun p => strHasSub (nameOf p) "tfevents")).map
      (fun p => parentOf (parentOf p))).dedup)

/-- Embedding of ModelSearchBase._get_version_dirs (model_search_base.py lines
37-55): the immediate subdirectories of log_dir, except any named
"best_model".  `allDirs` lists the directories present in the filesystem (the
iteration order of `iterdir()` is fixed to the order of `allDirs`). -/
def get_version_dirs (allDirs : List FPath) (log_dir : FPath) : List FPath :=
  allDirs.filter (fun d =>
    decide (d ≠ []) && decide (parentOf d = log_dir) && decide (nameOf d ≠ "best_model"))

/-! ## model_evaluation.py -/

/-- A dataframe row: the version label of the run plus the numeric value of
each metric column. -/
structure DFRow where
  version : String
  vals : String → Int

/-- A pandas dataframe: ordered column names plus rows. -/
structure DataFrame where
  cols : List String
  rows : List DFRow

/-- Constructor arguments of ModelEvaluation (custom_metrics is a dict, kept
as an association list in insertion order). -/
structure EvalConfig where
  custom_metrics : List (String × String)
  priority_min : List String
  priority_max : List String
  priority_order : String

/-- Base minimize metrics (model_evaluation.py lines 22-29). -/
def min_metrics_base : List String :=
  ["loss", "mae", "mape", "mse", "rmse", "perplexity"]

/-- Base maximize metrics (model_evaluation.py lines 30-37). -/
def max_metrics_base : List String :=
  ["accuracy", "precision", "recall", "f1_score", "topk", "top_k"]

/-- Embedding of the custom-metric registration loop of
ModelEvaluation.__init__ (model_evaluation.py lines 39-48): each custom
metric key is appended to the minimize or maximize list according to its
value; any other value raises ValueError. -/
def add_custom_metrics : List (String × String) → List String → List String →
    Except String (List String × List String)
  | [], mins, maxs => .ok (mins, maxs)
  | (k, v) :: rest, mins, maxs =>
    if v = "min" then add_custom_metrics rest (mins ++ [k]) maxs
    else if v = "max" then add_custom_metrics rest mins (maxs ++ [k])
    else .error "Custom_metrics values must be either min or max."

/-- self.min_metrics after __init__ for a valid configuration: custom metric
keys with value "min" appended to the base list. -/
def min_metrics_custom (cfg : EvalConfig) : List String :=
  min_metrics_base ++
    (cfg.custom_metrics.filter (fun e => decide (e.2 = "min"))).map (fun e => e.1)

/-- self.max_metrics after __init__ for a valid configuration. -/
def max_metrics_custom (cfg : EvalConfig) : List String :=
  max_metrics_base ++
    (cfg.custom_metrics.filter (fun e => decide (e.2 = "max"))).map (fun e => e.1)

/-- The membership-guarded append loop of _sort_metrics_dataframe
(model_evaluation.py lines 85-90): each priority metric not already present
is appended to the list. -/
def append_new (base : List String) (ps : List String) : List String :=
  ps.foldl (fun acc p => if p ∈ acc then acc else acc ++ [p]) base

/-- Effective minimize metrics at classification time (self.min_metrics after
model_evaluation.py lines 85-87). -/
def min_metrics_eff (cfg : EvalConfig) : List String :=
  append_new (min_metrics_custom cfg) cfg.priority_min

/-- Effective maximize metrics at classification time (self.max_metrics after
model_evaluation.py lines 88-90). -/
def max_metrics_eff (cfg : EvalConfig) : List String :=
  append_new (max_metrics_custom cfg) cfg.priority_max

/-- Metric list used by _extract_metrics_from_dataframe (model_evaluation.py
lines 61-67): self.min_metrics + self.max_metrics + priority_min +
priority_max + custom keys.  Whether the priority metrics have already been
appended to self.min_metrics/self.max_metrics (they are from the second
_sort_metrics_dataframe call on) does not change which columns match, since
they occur in the priority segments of the concatenation either way; the
post-append lists are used here. -/
def all_metrics (cfg : EvalConfig) : List String :=
  min_metrics_eff cfg ++ max_metrics_eff cfg ++ cfg.priority_min ++
    cfg.priority_max ++ cfg.custom_metrics.map (fun e => e.1)

/-- Column-keeping predicate of _extract_metrics_from_dataframe
(model_evaluation.py lines 68-75): a column is dropped unless some metric
name occurs in its name or it is named "version". -/
def keep_col (cfg : EvalConfig) (col : String) : Bool :=
  (all_metrics cfg).any (fun m => strHasSub col m) || decide (col = "version")

/-- Embedding of ModelEvaluation._extract_metrics_from_dataframe
(model_evaluation.py lines 52-77).  An empty dataframe (pandas df.empty: some
axis has length zero) is returned unchanged; otherwise the non-matching
columns are dropped, rows untouched. -/
def extract_metrics_from_dataframe (cfg : EvalConfig) (df : DataFrame) : DataFrame :=
  if df.rows.isEmpty || df.cols.isEmpty then df
  else { cols := df.cols.filter (keep_col cfg), rows := df.rows }

/-- Column matches some effective minimize metric (model_evaluation.py
line 99). -/
def matches_min (cfg : EvalConfig) (col : String) : Bool :=
  (min_metrics_eff cfg).any (fun m => strHasSub col m)

/-- Column matches some effective maximize metric (model_evaluation.py
line 101). -/
def matches_max (cfg : EvalConfig) (col : String) : Bool :=
  (max_metrics_eff cfg).any (fun m => strHasSub col m)

/-- Classification loop of _sort_metrics_dataframe (model_evaluation.py lines
92-102), minimize branch: columns matching a minimize metric, in column
order. -/
def sort_cols_min_base (cfg : EvalConfig) (cols : List String) : List String :=
  cols.filter (matches_min cfg)

/-- Classification loop, maximize branch (the elif at line 101): columns
matching a maximize metric but no minimize metric. -/
def sort_cols_max_base (cfg : EvalConfig) (cols : List String) : List String :=
  cols.filter (fun c => !matches_min cfg c && matches_max cfg c)

/-- One pass of the priority move-to-front loop of _sort_metrics_dataframe
(model_evaluation.py lines 114-129).  Python iterates `for col in lst` by
index over the list it is mutating; at each index, a column containing the
priority metric is removed (list.remove: first occurrence by value) and
reinserted at position 0.  One element is removed and one inserted, so the
length is unchanged and the loop runs length-many times; `fuel` counts the
remaining iterations and `i` is the loop index. -/
def move_priority_loop (p : String) : Nat → List String → Nat → List String
  | 0, l, _ => l
  | fuel + 1, l, i =>
    if h : i < l.length then
      let col := l.get ⟨i, h⟩
      if strHasSub col p then move_priority_loop p fuel (col :: l.erase col) (i + 1)
      else move_priority_loop p fuel l (i + 1)
    else l

/-- Full move-to-front pass for one priority metric. -/
def move_priority (p : String) (l : List String) : List String :=
  move_priority_loop p l.length l 0

/-- All priority metrics applied in order (the outer loops at
model_evaluation.py lines 115 and 123). -/
def move_priorities (ps : List String) (l : List String) : List String :=
  ps.foldl (fun acc p => move_priority p acc) l

/-- Final minimize sort columns of _sort_metrics_dataframe. -/
def sort_cols_min (cfg : EvalConfig) (cols : List String) : List String :=
  move_priorities cfg.priority_min (sort_cols_min_base cfg cols)

/-- Final maximize sort columns of _sort_metrics_dataframe. -/
def sort_cols_max (cfg : EvalConfig) (cols : List String) : List String :=
  move_priorities cfg.priority_max (sort_cols_max_base cfg cols)

/-- A sort key: column names paired with their ascending flag, primary key
first. -/
abbrev SortKey := List (String × Bool)

/-- Lexicographic row comparator realised by pandas sort_values over the key
columns with per-column ascending flags; later columns only break ties of
earlier ones. -/
def lexLe (key : SortKey) (r1 r2 : DFRow) : Bool :=
  match key with
  | [] => true
  | (c, asc) :: rest =>
    if r1.vals c = r2.vals c then lexLe rest r1 r2
    else if asc then decide (r1.vals c < r2.vals c)
    else decide (r2.vals c < r1.vals c)

/-- Sort key of the priority_order = "minimize" branch (model_evaluation.py
lines 132-138): minimize columns ascending, then maximize columns
descending. -/
def min_first_key (cfg : EvalConfig) (cols : List String) : SortKey :=
  (sort_cols_min cfg cols).map (fun c => (c, true)) ++
    (sort_cols_max cfg cols).map (fun c => (c, false))

/-- Sort key of the priority_order = "maximize" branch (model_evaluation.py
lines 139-145): maximize columns descending, then minimize columns
ascending. -/
def max_first_key (cfg : EvalConfig) (cols : List String) : SortKey :=
  (sort_cols_max cfg cols).map (fun c => (c, false)) ++
    (sort_cols_min cfg cols).map (fun c => (c, true))

/-- Embedding of ModelEvaluation._sort_metrics_dataframe (model_evaluation.py
lines 79-151). -/
def sort_metrics_dataframe (cfg : EvalConfig) (df : DataFrame) :
    Except String DataFrame :=
  let df2 := extract_metrics_from_dataframe cfg df
  if cfg.priority_order = "minimize" then
    .ok { cols := df2.cols, rows := sortBy (lexLe (min_first_key cfg df2.cols)) df2.rows }
  else if cfg.priority_order = "maximize" then
    .ok { cols := df2.cols, rows := sortBy (lexLe (max_first_key cfg df2.cols)) df2.rows }
  else .error "Priority_order must be either minimize or maximize."

/-- Embedding of the loop of _create_sorted_metrics_dataframe
(model_evaluation.py lines 153-169): _sort_metrics_dataframe applied to each
discovered dataframe in order, propagating the first exception. -/
def sort_all (cfg : EvalConfig) : List DataFrame → Except String (List DataFrame)
  | [] => .ok []
  | df :: dfs =>
    match sort_metrics_dataframe cfg df with
    | .error e => .error e
    | .ok s =>
      match sort_all cfg dfs with
      | .error e => .error e
      | .ok rest => .ok (s :: rest)

/-- Embedding of ModelEvaluation.__init__ (model_evaluation.py lines 7-50):
the custom metrics are validated first (lines 39-48), then
_create_sorted_metrics_dataframe (line 50) sorts the dataframe of every
discovered log directory, which raises the priority_order ValueError of
_sort_metrics_dataframe when that is invalid. -/
def model_evaluation_init (cfg : EvalConfig) (dfs : List DataFrame) :
    Except String (List DataFrame) :=
  match add_custom_metrics cfg.custom_metrics min_metrics_base max_metrics_base with
  | .error e => .error e
  | .ok _ => sort_all cfg dfs

/-! ## model_selection.py -/

/-- Minimal YAML value model for hparams files. -/
inductive Yaml where
  | str (s : String)
  | num (n : Int)
  | dict (entries : List (String × Yaml))

/-- Key membership test of a Python dict for the loaded YAML value
(the test `"hparams" in hparams`): only mappings contain keys. -/
def yaml_has_key (y : Yaml) (k : String) : Bool :=
  match y with
  | .dict es => es.any (fun e => decide (e.1 = k))
  | _ => false

/-- Python dict indexing on the loaded YAML value (only used when the key is
present). -/
def yaml_get (y : Yaml) (k : String) : Yaml :=
  match y with
  | .dict es =>
    match es.find? (fun e => decide (e.1 = k)) with
    | some e => e.2
    | none => .dict []
  | _ => .dict []

/-- One entry of self.data after _create_sorted_metrics_dataframe
(model_evaluation.py lines 161-167): the log directory with its sorted
metrics dataframe. -/
structure GroupData where
  log_dir : FPath
  sorted_metrics_df : DataFrame

/-- One entry of self.best_models (model_selection.py lines 69-78). -/
structure BestModel where
  log_dir : FPath
  log_dir_relative : FPath
  metrics : DFRow
  hparams : Yaml

/-- Default row used only to name the head of a list known to be non-empty. -/
def dfrow_default : DFRow := { version := "", vals := fun _ => 0 }

/-- Builds the best-model record of one group from the first row of its sorted
dataframe (the loop body of _select_best_models, model_selection.py lines
59-78).  `hpfs` maps a path to the YAML value of the file stored there, when
that file exists; `start` is self.start_path, of which every log directory is
an extension, so relative_to drops its components. -/
def best_model_of (start : FPath) (hpfs : FPath → Option Yaml) (g : GroupData)
    (r : DFRow) : BestModel :=
  let hparams :=
    match hpfs (g.log_dir ++ [r.version, "hparams.yaml"]) with
    | some y => y
    | none => Yaml.dict [("hparams", Yaml.dict [])]
  { log_dir := g.log_dir
    log_dir_relative := g.log_dir.drop start.length
    metrics := r
    hparams :=
      if yaml_has_key hparams "hparams" then yaml_get hparams "hparams" else hparams }

/-- Embedding of ModelSelection._select_best_models (model_selection.py lines
51-80): per group, skip it if the sorted dataframe is empty (pandas df.empty:
some axis has length zero), otherwise build the record from its first row
(iloc[0]). -/
def select_best_models (start : FPath) (hpfs : FPath → Option Yaml) :
    List GroupData → List BestModel
  | [] => []
  | g :: gs =>
    if g.sorted_metrics_df.rows.isEmpty || g.sorted_metrics_df.cols.isEmpty then
      select_best_models start hpfs gs
    else
      best_model_of start hpfs g (g.sorted_metrics_df.rows.headD dfrow_default) ::
        select_best_models start hpfs gs

/-- Filesystem state for link_best_models: the symlink table and the YAML
files written, each mapping a path to its content (the metrics dict of a
run). -/
structure LinkFS where
  symlinks : List (FPath × FPath)
  yaml_files : List (FPath × DFRow)

/-- Association-list update: the unlink-then-symlink pair and open(..., "w")
both replace whatever was stored at the path. -/
def setA (k : FPath) (v : α) (l : List (FPath × α)) : List (FPath × α) :=
  (k, v) :: l.filter (fun e => decide (e.1 ≠ k))

/-- Association-list lookup (readlink of a symlink, read of a file). -/
def lookupA (l : List (FPath × α)) (k : FPath) : Option α :=
  (l.find? (fun e => decide (e.1 = k))).map (fun e => e.2)

/-- Loop body of ModelSelection.link_best_models (model_selection.py lines
108-125): replace the best_model symlink of the log directory by a link to
the version directory of the best run, then write the metrics YAML through
the symlink (open resolves the just-created link, so the file lands in the
link target). -/
def link_one (split : String) (fs : LinkFS) (m : BestModel) : LinkFS :=
  let source_dir := m.log_dir ++ [m.metrics.version]
  let symlink_path := m.log_dir ++ ["best_model"]
  let links := setA symlink_path source_dir fs.symlinks
  let target :=
    match lookupA links symlink_path with
    | some t => t
    | none => symlink_path
  { symlinks := links
    yaml_files := setA (target ++ [split ++ "_metrics.yaml"]) m.metrics fs.yaml_files }

/-- Embedding of ModelSelection.link_best_models (model_selection.py lines
106-125). -/
def link_best_models (split : String) (bms : List BestModel) (fs : LinkFS) : LinkFS :=
  bms.foldl (link_one split) fs

/-- Filesystem tree for remove_unused_checkpoints: the directories and the
regular files present. -/
structure TreeFS where
  dirs : List FPath
  files : List FPath

/-- Embedding of shutil.rmtree: removes the directory and everything below
it. -/
def rmtree (c : FPath) (fs : TreeFS) : TreeFS :=
  { dirs := fs.dirs.filter (fun d => !(List.isPrefixOf c d))
    files := fs.files.filter (fun f => !(List.isPrefixOf c f)) }

/-- Checkpoint candidates of one version directory: the loop at
model_selection.py lines 100-104 globs the children matching *checkpoint*
and removes those that are directories. -/
def checkpoints_of (fs : TreeFS) (v : FPath) : List FPath :=
  fs.dirs.filter (fun d =>
    decide (d ≠ []) && decide (parentOf d = v) && strHasSub (nameOf d) "checkpoint")

/-- Removes every checkpoint directory inside one version directory
(model_selection.py lines 99-104). -/
def remove_checkpoints_in (v : FPath) (fs : TreeFS) : TreeFS :=
  (checkpoints_of fs v).foldl (fun s c => rmtree c s) fs

/-- Loop body of remove_unused_checkpoints for one best model
(model_selection.py lines 93-104, with no_confirm so every model is
processed): the version directories of the log directory minus the best
version (list.remove), sorted, each cleaned of its checkpoint
directories. -/
def remove_unused_for (m : BestModel) (fs : TreeFS) : TreeFS :=
  let vds := (get_version_dirs fs.dirs m.log_dir).erase (m.log_dir ++ [m.metrics.version])
  (sortBy pathLe vds).foldl (fun s v => remove_checkpoints_in v s) fs

/-- Embedding of ModelSelection.remove_unused_checkpoints (model_selection.py
lines 82-104) over all best models. -/
def remove_unused_checkpoints (bms : List BestModel) (fs : TreeFS) : TreeFS :=
  bms.foldl (fun s m => remove_unused_for m s) fs

/-! ## optuna_plotting.py and main.py -/

/-- Python exceptions relevant to PaperPrep construction. -/
inductive PyExc where
  | fileNotFoundError
  | attributeError
deriving DecidableEq

/-- Instance attributes assigned on an OptunaPlotter before _search_database
runs: __init__ (optuna_plotting.py lines 10-12) has set only start_path at
that point, and no method of the class ever assigns db_path. -/
def optuna_plotter_attrs : List String := ["start_path"]

/-- Embedding of OptunaPlotter._search_database (optuna_plotting.py lines
16-22).  `files` lists the regular files below start_path; the first one
named optuna.db (rglob order) yields the sqlite URL.  When none exists, the
code evaluates `self.db_path`; attribute access on a missing attribute
raises AttributeError, so the FileNotFoundError raise statement guarded by
it is reached only if db_path were an attribute. -/
def search_database (files : List FPath) : Except PyExc String :=
  match files.find? (fun p => decide (nameOf p = "optuna.db")) with
  | some p => .ok ("sqlite:///" ++ joinPath p)
  | none =>
    if "db_path" ∈ optuna_plotter_attrs then .error .fileNotFoundError
    else .error .attributeError

/-- Outcome of the optuna part of PaperPrep.__init__. -/
structure OptunaState where
  storage : Option String
  study_names : List String

/-- Embedding of the try/except around OptunaPlotter.__init__ in
PaperPrep.__init__ (main.py lines 37-41): only FileNotFoundError is caught
and turned into the empty study-name list; any other exception propagates
and PaperPrep construction fails.  `names_of` abstracts
optuna.get_all_study_summaries on the found storage. -/
def paper_prep_optuna_part (files : List FPath) (names_of : String → List String) :
    Except PyExc OptunaState :=
  match search_database files with
  | .ok storage => .ok { storage := some storage, study_names := names_of storage }
  | .error .fileNotFoundError => .ok { storage := none, study_names := [] }
  | .error e => .error e

/-! ## Predicates used by the claims -/

/-- The column name contains some metric of the given list as a substring. -/
def matches_any (ps : List String) (c : String) : Bool := ps.any (fun p => strHasSub c p)

/-- The first element occurs before the second in the list, at explicit
occurrence positions. -/
def PrecIn (l : List String) (c1 c2 : String) : Prop :=
  ∃ l1 l2 l3, l = l1 ++ c1 :: l2 ++ c2 :: l3

/-- Group whose sorted dataframe is non-empty in the pandas sense. -/
def group_nonempty (g : GroupData) : Bool :=
  !(g.sorted_metrics_df.rows.isEmpty || g.sorted_metrics_df.cols.isEmpty)

/-- A checkpoint-removal candidate of remove_unused_checkpoints relative to
the initial filesystem: a directory whose name contains "checkpoint", lying
directly inside a version directory of the log directory of the model other
than the version directory of its best run. -/
def ckpt_candidate (fs : TreeFS) (m : BestModel) (c : FPath) : Prop :=
  c ∈ fs.dirs ∧ c ≠ [] ∧ strHasSub (nameOf c) "checkpoint" = true ∧
    parentOf c ∈ get_version_dirs fs.dirs m.log_dir ∧
    parentOf c ≠ m.log_dir ++ [m.metrics.version]

/-- Invariant of the checkpoint-removal fold: the state stays below the
initial filesystem, keeps its directory list duplicate-free, and agrees with
the initial filesystem on every path that lies below no checkpoint
candidate. -/
def tree_inv (bms : List BestModel) (fs0 s : TreeFS) : Prop :=
  s.dirs ⊆ fs0.dirs ∧ s.files ⊆ fs0.files ∧ s.dirs.Nodup ∧
  ∀ p : FPath, (∀ m ∈ bms, ∀ c, ckpt_candidate fs0 m c → ¬ (c <+: p)) →
    ((p ∈ s.dirs ↔ p ∈ fs0.dirs) ∧ (p ∈ s.files ↔ p ∈ fs0.files))

/-! ## Concrete instances used by witnesses and counterexamples -/

/-- Default configuration: no custom metrics, no priorities, maximize. -/
def cfg_default : EvalConfig :=
  { custom_metrics := [], priority_min := [], priority_max := [], priority_order := "maximize" }

/-- Configuration with an invalid priority_order and no custom metrics. -/
def cfg_bad_order : EvalConfig :=
  { custom_metrics := [], priority_min := [], priority_max := [], priority_order := "foo" }

/-- Configuration with priority_min = ["mae"]. -/
def cfg_prio_mae : EvalConfig :=
  { custom_metrics := [], priority_min := ["mae"], priority_max := [], priority_order := "maximize" }

/-- A run with a low loss and a high accuracy. -/
def row_w1a : DFRow :=
  { version := "version_0"
    vals := fun c => if c = "test_loss" then 5 else if c = "test_accuracy" then 80 else 0 }

/-- A run with a lower loss and a higher accuracy than row_w1a. -/
def row_w1b : DFRow :=
  { version := "version_1"
    vals := fun c => if c = "test_loss" then 3 else if c = "test_accuracy" then 90 else 0 }

/-- Two-run dataframe over a loss, an accuracy and the version column. -/
def df_w1 : DataFrame :=
  { cols := ["test_loss", "test_accuracy", "version"], rows := [row_w1a, row_w1b] }

/-- Sorted form of df_w1 under cfg_default (best accuracy first). -/
def out_w1 : DataFrame :=
  { cols := ["test_loss", "test_accuracy", "version"], rows := [row_w1b, row_w1a] }

/-- Empty dataframe. -/
def df_empty : DataFrame := { cols := [], rows := [] }

/-- Dataframe with a single non-metric column and no rows. -/
def df_foo_norows : DataFrame := { cols := ["foo"], rows := [] }

/-- Single-row dataframe over one loss column. -/
def df_w9 : DataFrame :=
  { cols := ["test_loss"], rows := [{ version := "v0", vals := fun _ => 0 }] }

/-- A best-model record for log directory exp1 whose best run is version_3. -/
def m_w5 : BestModel :=
  { log_dir := ["exp1"], log_dir_relative := ["exp1"]
    metrics := { version := "version_3", vals := fun _ => 0 }
    hparams := Yaml.dict [] }

/-- A single row with version label version_2. -/
def row_w7 : DFRow := { version := "version_2", vals := fun _ => 7 }

/-- A group whose sorted dataframe has one row. -/
def g_w7 : GroupData :=
  { log_dir := ["exp"]
    sorted_metrics_df := { cols := ["test_loss", "version"], rows := [row_w7] } }

/-- A best-model record for log directory exp whose best run is version_0. -/
def m_w10 : BestModel :=
  { log_dir := ["exp"], log_dir_relative := ["exp"]
    metrics := { version := "version_0", vals := fun _ => 0 }
    hparams := Yaml.dict [] }

/-- A filesystem with a best version directory, a second version directory
holding a checkpoints directory, and one file under the best run. -/
def fs_w10 : TreeFS :=
  { dirs := [["exp"], ["exp", "version_0"], ["exp", "version_1"],
      ["exp", "version_1", "checkpoints"]]
    files := [["exp", "version_0", "events.out"], ["exp", "version_1", "checkpoints", "c1"]] }

/-- Best model of the outer log directory a, best run version_0. -/
def m_c10a : BestModel :=
  { log_dir := ["a"], log_dir_relative := ["a"]
    metrics := { version := "version_0", vals := fun _ => 0 }
    hparams := Yaml.dict [] }

/-- Best model of the nested log directory a/version_1/checkpoints (its
tfevents file lies two levels below it), best run v5. -/
def m_c10b : BestModel :=
  { log_dir := ["a", "version_1", "checkpoints"]
    log_dir_relative := ["a", "version_1", "checkpoints"]
    metrics := { version := "v5", vals := fun _ => 0 }
    hparams := Yaml.dict [] }

/-- Filesystem in which a second log directory is nested inside a checkpoint
directory of the first: tfevents files lie in a/version_0 and in
a/version_1/checkpoints/v5, so _get_log_dirs discovers both a and
a/version_1/checkpoints as log directories. -/
def fs_c10 : TreeFS :=
  { dirs := [["a"], ["a", "version_0"], ["a", "version_1"],
      ["a", "version_1", "checkpoints"], ["a", "version_1", "checkpoints", "v5"]]
    files := [["a", "version_0", "e1.tfevents"],
      ["a", "version_1", "checkpoints", "v5", "e2.tfevents"]] }

/-! ## General lemmas -/

theorem strLeList_total : ∀ a b : List Char, strLeList a b = true ∨ strLeList b a = true
  | [], _ => Or.inl rfl
  | _ :: _, [] => Or.inr rfl
  | a :: as, b :: bs => by
    by_cases hab : a = b
    · subst hab
      rcases strLeList_total as bs with h | h
      · exact Or.inl (by simp [strLeList, h])
      · exact Or.inr (by simp [strLeList, h])
    · rcases lt_or_gt_of_ne hab with h | h
      · exact Or.inl (by simp [strLeList, hab, h])
      · exact Or.inr (by simp [strLeList, Ne.symm hab, h])

theorem strLeList_trans :
    ∀ a b c : List Char, strLeList a b = true → strLeList b c = true → strLeList a c = true
  | [], _, _ => fun _ _ => rfl
  | _ :: _, [], _ => fun h _ => by simp [strLeList] at h
  | _ :: _, _ :: _, [] => fun _ h => by simp [strLeList] at h
  | a :: as, b :: bs, c :: cs => by
    intro h1 h2
    by_cases hab : a = b <;> by_cases hbc : b = c
    · subst hab; subst hbc
      simp only [strLeList, if_pos rfl] at h1 h2 ⊢
      exact strLeList_trans as bs cs h1 h2
    · subst hab
      simp [strLeList, hbc] at h2 ⊢
      exact h2
    · subst hbc
      simp [strLeList, hab] at h1 ⊢
      exact h1
    · simp [strLeList, hab] at h1
      simp [strLeList, hbc] at h2
      have hac : a < c := lt_trans h1 h2
      simp [strLeList, ne_of_lt hac, hac]

theorem strLe_total (s t : String) : strLe s t = true ∨ strLe t s = true :=
  strLeList_total s.toList t.toList

theorem strLe_trans (s t u : String) :
    strLe s t = true → strLe t u = true → strLe s u = true :=
  strLeList_trans s.toList t.toList u.toList

theorem strLeList_antisymm :
    ∀ a b : List Char, strLeList a b = true → strLeList b a = true → a = b
  | [], [], _, _ => rfl
  | [], _ :: _, _, h => by simp [strLeList] at h
  | _ :: _, [], h, _ => by simp [strLeList] at h
  | a :: as, b :: bs, h1, h2 => by
    by_cases hab : a = b
    · subst hab
      simp only [strLeList, if_pos rfl] at h1 h2
      rw [strLeList_antisymm as bs h1 h2]
    · simp [strLeList, hab] at h1
      simp [strLeList, Ne.symm hab] at h2
      exact absurd h2 (lt_asymm h1)

theorem strLe_antisymm {s t : String} (h1 : strLe s t = true) (h2 : strLe t s = true) :
    s = t :=
  String.ext (strLeList_antisymm s.toList t.toList h1 h2)

theorem pathLe_total : ∀ p q : FPath, pathLe p q = true ∨ pathLe q p = true
  | [], _ => Or.inl rfl
  | _ :: _, [] => Or.inr rfl
  | a :: as, b :: bs => by
    by_cases hab : a = b
    · subst hab
      rcases pathLe_total as bs with h | h
      · exact Or.inl (by simp [pathLe, h])
      · exact Or.inr (by simp [pathLe, h])
    · rcases strLe_total a b with h | h
      · exact Or.inl (by simp [pathLe, hab, h])
      · exact Or.inr (by simp [pathLe, Ne.symm hab, h])

theorem pathLe_trans :
    ∀ p q r : FPath, pathLe p q = true → pathLe q r = true → pathLe p r = true
  | [], _, _ => fun _ _ => rfl
  | _ :: _, [], _ => fun h _ => by simp [pathLe] at h
  | _ :: _, _ :: _, [] => fun _ h => by simp [pathLe] at h
  | a :: as, b :: bs, c :: cs => by
    intro h1 h2
    by_cases hab : a = b <;> by_cases hbc : b = c
    · subst hab; subst hbc
      simp only [pathLe, if_pos rfl] at h1 h2 ⊢
      exact pathLe_trans as bs cs h1 h2
    · subst hab
      simp [pathLe, hbc] at h2 ⊢
      exact h2
    · subst hbc
      simp [pathLe, hab] at h1 ⊢
      exact h1
    · simp [pathLe, hab] at h1
      simp [pathLe, hbc] at h2
      have hac : strLe a c = true := strLe_trans a b c h1 h2
      have hne : a ≠ c := by
        intro he
        subst he
        exact hbc (strLe_antisymm h2 h1)
      simp [pathLe, hne, hac]

theorem insertSorted_perm (le : α → α → Bool) (a : α) :
    ∀ l : List α, (insertSorted le a l).Perm (a :: l)
  | [] => List.Perm.refl _
  | b :: l => by
    by_cases h : le a b
    · simp [insertSorted, h]
    · simp only [insertSorted, if_neg h]
      exact ((insertSorted_perm le a l).cons b).trans (List.Perm.swap a b l)

theorem sortBy_perm (le : α → α → Bool) : ∀ l : List α, (sortBy le l).Perm l
  | [] => List.Perm.refl _
  | a :: l => (insertSorted_perm le a (sortBy le l)).trans ((sortBy_perm le l).cons a)

theorem mem_sortBy {le : α → α → Bool} {x : α} {l : List α} :
    x ∈ sortBy le l ↔ x ∈ l :=
  (sortBy_perm le l).mem_iff

theorem pairwise_insertSorted (le : α → α → Bool)
    (htot : ∀ a b, le a b = true ∨ le b a = true)
    (htrans : ∀ a b c, le a b = true → le b c = true → le a c = true)
    (a : α) : ∀ l : List α, l.Pairwise (fun x y => le x y = true) →
    (insertSorted le a l).Pairwise (fun x y => le x y = true)
  | [], _ => by simp [insertSorted]
  | b :: l, hp => by
    rcases List.pairwise_cons.mp hp with ⟨hb, hl⟩
    by_cases h : le a b
    · simp only [insertSorted, if_pos h]
      refine List.pairwise_cons.mpr ⟨?_, hp⟩
      intro x hx
      rcases List.mem_cons.mp hx with rfl | hx2
      · exact h
      · exact htrans a b x h (hb x hx2)
    · have hba : le b a = true := (htot a b).resolve_left (by simpa using h)
      simp only [insertSorted, if_neg h]
      refine List.pairwise_cons.mpr ⟨?_, pairwise_insertSorted le htot htrans a l hl⟩
      intro x hx
      have hx3 : x = a ∨ x ∈ l := by
        simpa using (insertSorted_perm le a l).mem_iff.mp hx
      rcases hx3 with rfl | hx2
      · exact hba
      · exact hb x hx2

theorem sortBy_sorted (le : α → α → Bool)
    (htot : ∀ a b, le a b = true ∨ le b a = true)
    (htrans : ∀ a b c, le a b = true → le b c = true → le a c = true) :
    ∀ l : List α, (sortBy le l).Pairwise (fun x y => le x y = true)
  | [] => List.Pairwise.nil
  | a :: l => pairwise_insertSorted le htot htrans a (sortBy le l)
      (sortBy_sorted le htot htrans l)


/-! ## Claims C3, C7, C4, C6 -/

/-- C3: _select_best_models returns exactly one record per log-directory group
whose sorted metrics dataframe is non-empty, built from the first row
(iloc[0]) of that dataframe, in the order of self.data; a group with an empty
sorted dataframe contributes no entry. -/
theorem claim_C3_select_best_models (start : FPath) (hpfs : FPath → Option Yaml) :
    ∀ gs : List GroupData,
    select_best_models start hpfs gs =
      (gs.filter group_nonempty).map
        (fun g => best_model_of start hpfs g (g.sorted_metrics_df.rows.headD dfrow_default))
  | [] => rfl
  | g :: gs => by
    by_cases h : (g.sorted_metrics_df.rows.isEmpty || g.sorted_metrics_df.cols.isEmpty) = true
    · simp [select_best_models, h, group_nonempty, List.filter_cons,
        claim_C3_select_best_models start hpfs gs]
    · simp [select_best_models, h, group_nonempty, List.filter_cons,
        claim_C3_select_best_models start hpfs gs]

/-- C7: when the version directory of the best run contains no hparams.yaml,
_select_best_models does not fail: the record gets an empty hyperparameter
dictionary, and the log_dir, relative-path and metrics fields do not depend
on the hparams file at all. -/
theorem claim_C7_missing_hparams (start : FPath) (hpfs : FPath → Option Yaml)
    (g : GroupData) (r : DFRow)
    (h : hpfs (g.log_dir ++ [r.version, "hparams.yaml"]) = none) :
    (best_model_of start hpfs g r).hparams = Yaml.dict [] ∧
    ∀ hpfs2 : FPath → Option Yaml,
      (best_model_of start hpfs g r).log_dir = (best_model_of start hpfs2 g r).log_dir ∧
      (best_model_of start hpfs g r).log_dir_relative =
        (best_model_of start hpfs2 g r).log_dir_relative ∧
      (best_model_of start hpfs g r).metrics = (best_model_of start hpfs2 g r).metrics := by
  refine ⟨?_, fun hpfs2 => ⟨rfl, rfl, rfl⟩⟩
  simp [best_model_of, h, yaml_has_key, yaml_get]

/-- Witness for C7 at a concrete group with no hparams file. -/
theorem claim_C7_witness :
    (best_model_of [] (fun _ => none) g_w7 row_w7).hparams = Yaml.dict [] ∧
    (best_model_of [] (fun _ => none) g_w7 row_w7).metrics =
      (best_model_of [] (fun _ => some (Yaml.num 1)) g_w7 row_w7).metrics := by
  have h := claim_C7_missing_hparams [] (fun _ => none) g_w7 row_w7 rfl
  exact ⟨h.1, (h.2 (fun _ => some (Yaml.num 1))).2.2⟩

/-- C4: _get_log_dirs returns exactly the directories p.parent.parent of the
files p whose name contains "tfevents", duplicate-free and sorted in
ascending path order. -/
theorem claim_C4_get_log_dirs (files : List FPath) :
    (get_log_dirs files).Nodup ∧
    (get_log_dirs files).Pairwise (fun p q => pathLe p q = true) ∧
    ∀ d : FPath, d ∈ get_log_dirs files ↔
      ∃ p ∈ files, strHasSub (nameOf p) "tfevents" = true ∧ d = parentOf (parentOf p) := by
  refine ⟨?_, ?_, ?_⟩
  · exact ((sortBy_perm pathLe _).nodup_iff).mpr (List.nodup_dedup _)
  · exact sortBy_sorted pathLe pathLe_total pathLe_trans _
  · intro d
    simp only [get_log_dirs, mem_sortBy, List.mem_dedup, List.mem_map, List.mem_filter]
    constructor
    · rintro ⟨p, ⟨hp, hs⟩, rfl⟩
      exact ⟨p, hp, hs, rfl⟩
    · rintro ⟨p, hp, hs, rfl⟩
      exact ⟨p, ⟨hp, hs⟩, rfl⟩

/-- C6: with no optuna.db anywhere below start_path, _search_database ends in
AttributeError (self.db_path is referenced but never assigned), not in the
intended FileNotFoundError, and since PaperPrep.__init__ catches only
FileNotFoundError, PaperPrep construction fails instead of recovering with
study_names = []. -/
theorem claim_C6_no_database (files : List FPath) (names_of : String → List String)
    (h : ∀ p ∈ files, nameOf p ≠ "optuna.db") :
    search_database files = .error .attributeError ∧
    paper_prep_optuna_part files names_of = .error .attributeError := by
  have hfind : files.find? (fun p => decide (nameOf p = "optuna.db")) = none := by
    rw [List.find?_eq_none]
    intro p hp
    simpa using h p hp
  constructor
  · simp [search_database, hfind, optuna_plotter_attrs]
  · simp [paper_prep_optuna_part, search_database, hfind, optuna_plotter_attrs]

/-- Witness for C6: an empty tree has no optuna.db. -/
theorem claim_C6_witness :
    search_database [] = .error .attributeError ∧
    paper_prep_optuna_part [] (fun _ => []) = .error .attributeError :=
  claim_C6_no_database [] (fun _ => []) (by simp)

/-! ## Claim C8 -/

theorem add_custom_metrics_isOk :
    ∀ (cm : List (String × String)) (mins maxs : List String),
    (add_custom_metrics cm mins maxs).isOk = true ↔ ∀ e ∈ cm, e.2 = "min" ∨ e.2 = "max"
  | [], mins, maxs => by simp [add_custom_metrics, Except.isOk, Except.toBool]
  | (k, v) :: rest, mins, maxs => by
    by_cases h1 : v = "min"
    · simp [add_custom_metrics, h1, add_custom_metrics_isOk rest]
    · by_cases h2 : v = "max"
      · simp [add_custom_metrics, h1, h2, add_custom_metrics_isOk rest]
      · constructor
        · intro hok
          exact absurd hok (by simp [add_custom_metrics, h1, h2, Except.isOk, Except.toBool])
        · intro hall
          exact absurd (hall (k, v) (by simp)) (by simp [h1, h2])

theorem sort_metrics_dataframe_isOk (cfg : EvalConfig) (df : DataFrame) :
    (sort_metrics_dataframe cfg df).isOk = true ↔
      (cfg.priority_order = "minimize" ∨ cfg.priority_order = "maximize") := by
  by_cases h1 : cfg.priority_order = "minimize"
  · simp [sort_metrics_dataframe, h1, Except.isOk, Except.toBool]
  · by_cases h2 : cfg.priority_order = "maximize"
    · simp [sort_metrics_dataframe, h1, h2, Except.isOk, Except.toBool]
    · simp [sort_metrics_dataframe, h1, h2, Except.isOk, Except.toBool]

theorem sort_all_isOk :
    ∀ (cfg : EvalConfig) (dfs : List DataFrame),
    (sort_all cfg dfs).isOk = true ↔
      (dfs = [] ∨ cfg.priority_order = "minimize" ∨ cfg.priority_order = "maximize")
  | cfg, [] => by simp [sort_all, Except.isOk, Except.toBool]
  | cfg, df :: dfs => by
    have hiff := sort_metrics_dataframe_isOk cfg df
    cases hs : sort_metrics_dataframe cfg df with
    | error e =>
      rw [hs] at hiff
      simp only [Except.isOk, Except.toBool, Bool.false_eq_true, false_iff] at hiff
      push_neg at hiff
      simp [sort_all, hs, Except.isOk, Except.toBool, hiff.1, hiff.2]
    | ok s =>
      rw [hs] at hiff
      simp only [Except.isOk, Except.toBool, true_iff] at hiff
      have h2 := sort_all_isOk cfg dfs
      cases hr : sort_all cfg dfs with
      | error e2 =>
        rw [hr] at h2
        simp only [Except.isOk, Except.toBool, Bool.false_eq_true, false_iff] at h2
        exact absurd (Or.inr hiff) h2
      | ok rest =>
        simp only [sort_all, hs, hr, Except.isOk, Except.toBool, true_iff]
        exact Or.inr hiff

theorem model_evaluation_init_isOk (cfg : EvalConfig) (dfs : List DataFrame) :
    (model_evaluation_init cfg dfs).isOk = true ↔
      ((∀ e ∈ cfg.custom_metrics, e.2 = "min" ∨ e.2 = "max") ∧
        (dfs = [] ∨ cfg.priority_order = "minimize" ∨ cfg.priority_order = "maximize")) := by
  have h1 := add_custom_metrics_isOk cfg.custom_metrics min_metrics_base max_metrics_base
  cases hc : add_custom_metrics cfg.custom_metrics min_metrics_base max_metrics_base with
  | error e =>
    rw [hc] at h1
    simp only [Except.isOk, Except.toBool, Bool.false_eq_true, false_iff] at h1
    simp only [model_evaluation_init, hc, Except.isOk, Except.toBool, Bool.false_eq_true,
      false_iff]
    intro hr
    exact h1 hr.1
  | ok pr =>
    rw [hc] at h1
    simp only [Except.isOk, Except.toBool, true_iff] at h1
    simp only [model_evaluation_init, hc]
    rw [sort_all_isOk]
    exact ⟨fun hd => ⟨h1, hd⟩, And.right⟩

/-- C8 as stated is false: constructing ModelEvaluation with an entirely
valid (empty) custom_metrics dict but priority_order = "foo" and one
discovered dataframe raises the priority_order ValueError from
_sort_metrics_dataframe inside __init__, so "construction raises ValueError
iff some custom_metrics value is invalid" fails at this input. -/
theorem claim_C8_counterexample :
    ¬ (((model_evaluation_init cfg_bad_order [df_empty]).isOk = false) ↔
      ∃ e ∈ cfg_bad_order.custom_metrics, e.2 ≠ "min" ∧ e.2 ≠ "max") := by
  decide

/-- C8 amended: construction raises ValueError iff some custom metric value
is invalid, or priority_order is invalid and at least one dataframe is
processed; and _sort_metrics_dataframe raises ValueError iff priority_order
is neither "minimize" nor "maximize". -/
theorem claim_C8_amended (cfg : EvalConfig) (dfs : List DataFrame) (df : DataFrame) :
    ((model_evaluation_init cfg dfs).isOk = false ↔
      ((∃ e ∈ cfg.custom_metrics, e.2 ≠ "min" ∧ e.2 ≠ "max") ∨
        (cfg.priority_order ≠ "minimize" ∧ cfg.priority_order ≠ "maximize" ∧ dfs ≠ []))) ∧
    ((sort_metrics_dataframe cfg df).isOk = false ↔
      (cfg.priority_order ≠ "minimize" ∧ cfg.priority_order ≠ "maximize")) := by
  constructor
  · rw [Bool.eq_false_iff, Ne, model_evaluation_init_isOk]
    constructor
    · intro hneg
      by_cases hall : ∀ e ∈ cfg.custom_metrics, e.2 = "min" ∨ e.2 = "max"
      · right
        have hd : ¬ (dfs = [] ∨ cfg.priority_order = "minimize" ∨
            cfg.priority_order = "maximize") := fun hd => hneg ⟨hall, hd⟩
        push_neg at hd
        exact ⟨hd.2.1, hd.2.2, hd.1⟩
      · left
        push_neg at hall
        rcases hall with ⟨e, he, hbad⟩
        exact ⟨e, he, hbad.1, hbad.2⟩
    · rintro (⟨e, he, hb1, hb2⟩ | ⟨hm1, hm2, hne⟩) ⟨hall, hd⟩
      · rcases hall e he with h | h
        · exact hb1 h
        · exact hb2 h
      · rcases hd with h | h | h
        · exact hne h
        · exact hm1 h
        · exact hm2 h
  · rw [Bool.eq_false_iff, Ne, sort_metrics_dataframe_isOk, not_or]

/-! ## Claim C9 -/

/-- C9 as stated is false: on a dataframe that pandas considers empty (zero
rows) but which still has a column, _extract_metrics_from_dataframe returns
it unfiltered, keeping a column that is neither "version" nor contains any
known metric name. -/
theorem claim_C9_counterexample :
    ∃ col ∈ (extract_metrics_from_dataframe cfg_default df_foo_norows).cols,
      col ≠ "version" ∧ ∀ m ∈ all_metrics cfg_default, strHasSub col m = false := by
  decide

/-- C9 amended: for dataframes with at least one row and one column, every
column kept by _extract_metrics_from_dataframe is "version" or contains a
known metric name; and for any column list, a column matching a minimize
metric is classified into sort_cols_min and never into sort_cols_max (the
elif gives minimize precedence). -/
theorem claim_C9_amended (cfg : EvalConfig) (df : DataFrame) (cols : List String) :
    (df.rows ≠ [] → df.cols ≠ [] →
      ∀ col ∈ (extract_metrics_from_dataframe cfg df).cols,
        col = "version" ∨ ∃ m ∈ all_metrics cfg, strHasSub col m = true) ∧
    (∀ col ∈ cols, matches_min cfg col = true →
      col ∈ sort_cols_min_base cfg cols ∧ col ∉ sort_cols_max_base cfg cols) := by
  constructor
  · intro hr hc col hcol
    have hemp : (df.rows.isEmpty || df.cols.isEmpty) = false := by
      simp [List.isEmpty_iff, hr, hc]
    rw [extract_metrics_from_dataframe, hemp] at hcol
    simp only [Bool.false_eq_true, if_false] at hcol
    have hk := (List.mem_filter.mp hcol).2
    rw [keep_col, Bool.or_eq_true] at hk
    rcases hk with hk | hk
    · right
      rcases List.any_eq_true.mp hk with ⟨m, hm, hsub⟩
      exact ⟨m, hm, hsub⟩
    · left
      exact of_decide_eq_true hk
  · intro col hcol hmin
    constructor
    · exact List.mem_filter.mpr ⟨hcol, hmin⟩
    · intro hmem
      have hcond := (List.mem_filter.mp hmem).2
      simp [hmin] at hcond

/-- Witness for the amended C9 at a concrete non-empty dataframe and column
list. -/
theorem claim_C9_amended_witness :
    ("test_loss" = "version" ∨ ∃ m ∈ all_metrics cfg_default, strHasSub "test_loss" m = true) ∧
    ("test_loss" ∈ sort_cols_min_base cfg_default ["test_loss"] ∧
      "test_loss" ∉ sort_cols_max_base cfg_default ["test_loss"]) := by
  have h := claim_C9_amended cfg_default df_w9 ["test_loss"]
  exact ⟨h.1 (by simp [df_w9]) (by simp [df_w9]) "test_loss" (by decide),
    h.2 "test_loss" (by simp) (by decide)⟩

/-! ## Claim C1 -/

theorem lexLe_total (key : SortKey) :
    ∀ r1 r2 : DFRow, lexLe key r1 r2 = true ∨ lexLe key r2 r1 = true := by
  induction key with
  | nil => exact fun _ _ => Or.inl rfl
  | cons kv rest ih =>
    rcases kv with ⟨c, asc⟩
    intro r1 r2
    by_cases he : r1.vals c = r2.vals c
    · rcases ih r1 r2 with h | h
      · exact Or.inl (by simp [lexLe, he, h])
      · exact Or.inr (by simp [lexLe, he.symm, h])
    · rcases lt_or_gt_of_ne he with hlt | hgt
      · cases asc
        · exact Or.inr (by simp [lexLe, Ne.symm he, hlt])
        · exact Or.inl (by simp [lexLe, he, hlt])
      · cases asc
        · exact Or.inl (by simp [lexLe, he, hgt])
        · exact Or.inr (by simp [lexLe, Ne.symm he, hgt])

theorem lexLe_trans (key : SortKey) :
    ∀ r1 r2 r3 : DFRow, lexLe key r1 r2 = true → lexLe key r2 r3 = true →
      lexLe key r1 r3 = true := by
  induction key with
  | nil => intro _ _ _ _ _; rfl
  | cons kv rest ih =>
    rcases kv with ⟨c, asc⟩
    intro r1 r2 r3 h12 h23
    by_cases h12e : r1.vals c = r2.vals c <;> by_cases h23e : r2.vals c = r3.vals c
    · have h13e : r1.vals c = r3.vals c := h12e.trans h23e
      simp only [lexLe, if_pos h12e] at h12
      simp only [lexLe, if_pos h23e] at h23
      simp only [lexLe, if_pos h13e]
      exact ih r1 r2 r3 h12 h23
    · have h13e : ¬ (r1.vals c = r3.vals c) := by
        rw [h12e]; exact h23e
      simp only [lexLe, if_neg h23e] at h23
      simp only [lexLe, if_neg h13e]
      rw [h12e]
      exact h23
    · have h13e : ¬ (r1.vals c = r3.vals c) := by
        rw [← h23e]; exact h12e
      simp only [lexLe, if_neg h12e] at h12
      simp only [lexLe, if_neg h13e]
      rw [← h23e]
      exact h12
    · simp only [lexLe, if_neg h12e] at h12
      simp only [lexLe, if_neg h23e] at h23
      cases asc
      · have l12 : r2.vals c < r1.vals c := of_decide_eq_true (by simpa using h12)
        have l23 : r3.vals c < r2.vals c := of_decide_eq_true (by simpa using h23)
        have l13 : r3.vals c < r1.vals c := lt_trans l23 l12
        have h13e : ¬ (r1.vals c = r3.vals c) := (ne_of_lt l13).symm
        simp only [lexLe, if_neg h13e]
        simpa using l13
      · have l12 : r1.vals c < r2.vals c := of_decide_eq_true (by simpa using h12)
        have l23 : r2.vals c < r3.vals c := of_decide_eq_true (by simpa using h23)
        have l13 : r1.vals c < r3.vals c := lt_trans l12 l23
        have h13e : ¬ (r1.vals c = r3.vals c) := ne_of_lt l13
        simp only [lexLe, if_neg h13e]
        simpa using l13

theorem sort_metrics_dataframe_maximize (cfg : EvalConfig) (df : DataFrame)
    (hord : cfg.priority_order = "maximize") :
    sort_metrics_dataframe cfg df = .ok
      { cols := (extract_metrics_from_dataframe cfg df).cols
        rows := sortBy (lexLe (max_first_key cfg (extract_metrics_from_dataframe cfg df).cols))
          (extract_metrics_from_dataframe cfg df).rows } := by
  rw [sort_metrics_dataframe]
  simp [hord]

theorem sort_metrics_dataframe_minimize (cfg : EvalConfig) (df : DataFrame)
    (hord : cfg.priority_order = "minimize") :
    sort_metrics_dataframe cfg df = .ok
      { cols := (extract_metrics_from_dataframe cfg df).cols
        rows := sortBy (lexLe (min_first_key cfg (extract_metrics_from_dataframe cfg df).cols))
          (extract_metrics_from_dataframe cfg df).rows } := by
  rw [sort_metrics_dataframe]
  simp [hord]

/-- C1: for priority_order = "maximize", _sort_metrics_dataframe returns a
permutation of the extracted rows sorted lexicographically by the maximize
columns descending followed by the minimize columns ascending; for
"minimize", by the minimize columns ascending followed by the maximize
columns descending.  The comparator lexLe is lexicographic, so later key
columns act only as tie-breaks for earlier ones. -/
theorem claim_C1_sort_metrics_dataframe (cfg : EvalConfig) (df out : DataFrame) :
    (cfg.priority_order = "maximize" →
      sort_metrics_dataframe cfg df = .ok out →
      out.rows.Perm (extract_metrics_from_dataframe cfg df).rows ∧
      out.rows.Pairwise (fun r1 r2 =>
        lexLe (max_first_key cfg (extract_metrics_from_dataframe cfg df).cols) r1 r2 = true)) ∧
    (cfg.priority_order = "minimize" →
      sort_metrics_dataframe cfg df = .ok out →
      out.rows.Perm (extract_metrics_from_dataframe cfg df).rows ∧
      out.rows.Pairwise (fun r1 r2 =>
        lexLe (min_first_key cfg (extract_metrics_from_dataframe cfg df).cols) r1 r2 = true)) := by
  constructor
  · intro hord hok
    rw [sort_metrics_dataframe_maximize cfg df hord] at hok
    have hrows : out.rows =
        sortBy (lexLe (max_first_key cfg (extract_metrics_from_dataframe cfg df).cols))
          (extract_metrics_from_dataframe cfg df).rows := by
      injection hok with h
      rw [← h]
    rw [hrows]
    exact ⟨sortBy_perm _ _, sortBy_sorted _ (lexLe_total _) (lexLe_trans _) _⟩
  · intro hord hok
    rw [sort_metrics_dataframe_minimize cfg df hord] at hok
    have hrows : out.rows =
        sortBy (lexLe (min_first_key cfg (extract_metrics_from_dataframe cfg df).cols))
          (extract_metrics_from_dataframe cfg df).rows := by
      injection hok with h
      rw [← h]
    rw [hrows]
    exact ⟨sortBy_perm _ _, sortBy_sorted _ (lexLe_total _) (lexLe_trans _) _⟩

/-- Witness for C1 at a concrete two-run dataframe sorted under maximize. -/
theorem claim_C1_witness :
    out_w1.rows.Perm (extract_metrics_from_dataframe cfg_default df_w1).rows ∧
    out_w1.rows.Pairwise (fun r1 r2 =>
      lexLe (max_first_key cfg_default (extract_metrics_from_dataframe cfg_default df_w1).cols)
        r1 r2 = true) :=
  (claim_C1_sort_metrics_dataframe cfg_default df_w1 out_w1).1 rfl rfl

/-! ## Claim C2 -/

theorem PrecIn_of_mem_parts {A B : List String} {c1 c2 : String}
    (h1 : c1 ∈ A) (h2 : c2 ∈ B) : PrecIn (A ++ B) c1 c2 := by
  rcases List.append_of_mem h1 with ⟨a1, a2, rfl⟩
  rcases List.append_of_mem h2 with ⟨b1, b2, rfl⟩
  exact ⟨a1, a2 ++ b1, b2, by simp⟩

theorem PrecIn_filter {l : List String} {c1 c2 : String} {p : String → Bool}
    (h : PrecIn l c1 c2) (h1 : p c1 = true) (h2 : p c2 = true) :
    PrecIn (l.filter p) c1 c2 := by
  rcases h with ⟨l1, l2, l3, rfl⟩
  refine ⟨l1.filter p, l2.filter p, l3.filter p, ?_⟩
  simp [List.filter_append, List.filter_cons, h1, h2]

theorem PrecIn_prepend {l : List String} {c1 c2 : String} (X : List String)
    (h : PrecIn l c1 c2) : PrecIn (X ++ l) c1 c2 := by
  rcases h with ⟨l1, l2, l3, rfl⟩
  exact ⟨X ++ l1, l2, l3, by simp⟩

theorem matches_any_false {ps : List String} {c : String} (h : matches_any ps c = false) :
    ∀ q ∈ ps, strHasSub c q = false := by
  intro q hq
  by_contra hc
  rw [show matches_any ps c = true from
    List.any_eq_true.mpr ⟨q, hq, by simpa using Bool.not_eq_false _ ▸ hc⟩] at h
  exact Bool.true_eq_false.mp h

theorem move_priority_loop_eq (p : String) :
    ∀ (todo done : List String), (done ++ todo).Nodup →
    move_priority_loop p todo.length (done ++ todo) done.length =
      (todo.filter (fun c => strHasSub c p)).reverse ++ done ++
        todo.filter (fun c => !strHasSub c p)
  | [], done, _ => by simp [move_priority_loop]
  | col :: todo, done, hnd => by
    have hlen : done.length < (done ++ col :: todo).length := by simp
    have hget : (done ++ col :: todo).get ⟨done.length, hlen⟩ = col := by
      rw [List.get_eq_getElem, List.getElem_append_right (le_refl done.length)]
      simp
    have hcold : col ∉ done := by
      rcases List.nodup_append.mp hnd with ⟨_, _, hdisj⟩
      intro hc
      exact hdisj hc (by simp)
    simp only [List.length_cons]
    rw [move_priority_loop, dif_pos hlen]
    simp only [hget]
    by_cases hm : strHasSub col p
    · rw [if_pos hm, List.erase_append_right _ hcold, List.erase_cons_head]
      have hnd2 : ((col :: done) ++ todo).Nodup := hnd.perm List.perm_middle
      have ih := move_priority_loop_eq p todo (col :: done) hnd2
      simp only [List.cons_append, List.length_cons] at ih
      rw [ih]
      simp [List.filter_cons, hm, List.append_assoc]
    · rw [if_neg hm]
      have hnd2 : ((done ++ [col]) ++ todo).Nodup := by
        rw [← List.append_cons]
        exact hnd
      have ih := move_priority_loop_eq p todo (done ++ [col]) hnd2
      simp only [List.length_append, List.length_singleton] at ih
      rw [List.append_cons, ih]
      simp [List.filter_cons, hm, List.append_assoc]

theorem move_priority_eq (p : String) (l : List String) (h : l.Nodup) :
    move_priority p l =
      (l.filter (fun c => strHasSub c p)).reverse ++ l.filter (fun c => !strHasSub c p) := by
  have h2 := move_priority_loop_eq p l [] (by simpa using h)
  simpa [move_priority] using h2

theorem move_priority_perm (p : String) (l : List String) (h : l.Nodup) :
    (move_priority p l).Perm l := by
  rw [move_priority_eq p l h]
  exact ((List.reverse_perm _).append_right _).trans (List.filter_append_perm _ l)

theorem move_priority_nodup (p : String) (l : List String) (h : l.Nodup) :
    (move_priority p l).Nodup :=
  h.perm (move_priority_perm p l h).symm

theorem move_priorities_nodup :
    ∀ (ps : List String) (l : List String), l.Nodup → (move_priorities ps l).Nodup
  | [], _, h => h
  | p :: ps, l, h => move_priorities_nodup ps _ (move_priority_nodup p l h)

theorem move_priorities_inv :
    ∀ (rest : List String) (l : List String) (processed : List String),
    l.Nodup →
    (∀ c1 c2, c1 ∈ l → c2 ∈ l → matches_any processed c1 = true →
      matches_any (processed ++ rest) c2 = false → PrecIn l c1 c2) →
    ∀ c1 c2, c1 ∈ move_priorities rest l → c2 ∈ move_priorities rest l →
      matches_any (processed ++ rest) c1 = true →
      matches_any (processed ++ rest) c2 = false →
      PrecIn (move_priorities rest l) c1 c2
  | [], l, processed, _, hinv => by
    intro c1 c2 h1 h2 hm1 hm2
    rw [List.append_nil] at hm1
    exact hinv c1 c2 h1 h2 hm1 hm2
  | p :: rest, l, processed, hnd, hinv => by
    intro c1 c2 h1 h2 hm1 hm2
    rw [List.append_cons] at hm1 hm2
    refine move_priorities_inv rest (move_priority p l) (processed ++ [p])
      (move_priority_nodup p l hnd) ?_ c1 c2 h1 h2 hm1 hm2
    intro d1 d2 hd1 hd2 hmm1 hmm2
    have hd1l : d1 ∈ l := (move_priority_perm p l hnd).subset hd1
    have hd2l : d2 ∈ l := (move_priority_perm p l hnd).subset hd2
    have hd2p : strHasSub d2 p = false :=
      matches_any_false hmm2 p (by simp)
    rw [move_priority_eq p l hnd] at hd1 hd2 ⊢
    have hd2mem : d2 ∈ l.filter (fun c => !strHasSub c p) :=
      List.mem_filter.mpr ⟨hd2l, by simp [hd2p]⟩
    by_cases hp1 : strHasSub d1 p
    · have hd1mem : d1 ∈ (l.filter (fun c => strHasSub c p)).reverse :=
        List.mem_reverse.mpr (List.mem_filter.mpr ⟨hd1l, hp1⟩)
      exact PrecIn_of_mem_parts hd1mem hd2mem
    · have hmp1 : matches_any processed d1 = true := by
        rcases List.any_eq_true.mp hmm1 with ⟨q, hq, hsub⟩
        rcases List.mem_append.mp hq with hq | hq
        · exact List.any_eq_true.mpr ⟨q, hq, hsub⟩
        · rcases List.mem_singleton.mp hq with rfl
          exact absurd hsub hp1
      have hprec : PrecIn l d1 d2 := by
        refine hinv d1 d2 hd1l hd2l hmp1 ?_
        rw [List.append_cons]
        exact hmm2
      refine PrecIn_prepend _ (PrecIn_filter hprec ?_ ?_)
      · simp [hp1]
      · simp [hd2p]

theorem move_priorities_front (ps : List String) (l : List String) (hnd : l.Nodup) :
    ∀ c1 c2, c1 ∈ move_priorities ps l → c2 ∈ move_priorities ps l →
    matches_any ps c1 = true → matches_any ps c2 = false →
    PrecIn (move_priorities ps l) c1 c2 := by
  intro c1 c2 h1 h2 hm1 hm2
  refine move_priorities_inv ps l [] hnd ?_ c1 c2 h1 h2 hm1 hm2
  intro d1 d2 _ _ hmd _
  exact absurd hmd (by simp [matches_any])

theorem mem_append_new :
    ∀ (ps base : List String) (p : String), p ∈ base ∨ p ∈ ps → p ∈ append_new base ps
  | [], _, p, h => by
    rcases h with h | h
    · exact h
    · exact absurd h (by simp)
  | q :: ps, base, p, h => by
    show p ∈ append_new (if q ∈ base then base else base ++ [q]) ps
    rcases h with h | h
    · refine mem_append_new ps _ p (Or.inl ?_)
      by_cases hq : q ∈ base
      · rw [if_pos hq]; exact h
      · rw [if_neg hq]; exact List.mem_append.mpr (Or.inl h)
    · rcases List.mem_cons.mp h with rfl | h
      · refine mem_append_new ps _ p (Or.inl ?_)
        by_cases hq : p ∈ base
        · rw [if_pos hq]; exact hq
        · rw [if_neg hq]; exact List.mem_append.mpr (Or.inr (by simp))
      · exact mem_append_new ps _ p (Or.inr h)

/-- C2: in the sort key built by _sort_metrics_dataframe, the priority
metrics are the primary sort keys for their direction: every column
containing a priority_min metric is classified into the minimize sort
columns, and within the final minimize (resp. maximize) sort-column list —
the direction segments of the sort key — every column containing a priority
metric of that direction occurs before every column of that direction
containing none, also when several columns match the same priority
metric. -/
theorem claim_C2_priority_first (cfg : EvalConfig) (cols : List String)
    (hnd : cols.Nodup) :
    (∀ col ∈ cols, matches_any cfg.priority_min col = true →
      col ∈ sort_cols_min_base cfg cols) ∧
    (∀ c1 c2, c1 ∈ sort_cols_min cfg cols → c2 ∈ sort_cols_min cfg cols →
      matches_any cfg.priority_min c1 = true → matches_any cfg.priority_min c2 = false →
      PrecIn (sort_cols_min cfg cols) c1 c2) ∧
    (∀ c1 c2, c1 ∈ sort_cols_max cfg cols → c2 ∈ sort_cols_max cfg cols →
      matches_any cfg.priority_max c1 = true → matches_any cfg.priority_max c2 = false →
      PrecIn (sort_cols_max cfg cols) c1 c2) := by
  refine ⟨?_, move_priorities_front _ _ (List.Nodup.filter _ hnd),
    move_priorities_front _ _ (List.Nodup.filter _ hnd)⟩
  intro col hcol hm
  rcases List.any_eq_true.mp hm with ⟨q, hq, hsub⟩
  refine List.mem_filter.mpr ⟨hcol, ?_⟩
  exact List.any_eq_true.mpr ⟨q, mem_append_new _ _ q (Or.inr hq), hsub⟩

/-- Witness for C2: with priority_min = ["mae"], the matching column
test_mae is moved in front of test_loss. -/
theorem claim_C2_witness :
    PrecIn (sort_cols_min cfg_prio_mae ["test_loss", "test_mae"]) "test_mae" "test_loss" :=
  (claim_C2_priority_first cfg_prio_mae ["test_loss", "test_mae"] (by decide)).2.1
    "test_mae" "test_loss" (by decide) (by decide) (by decide) (by decide)

/-! ## Claim C5 -/

theorem lookupA_cons (e : FPath × α) (l : List (FPath × α)) (k2 : FPath) :
    lookupA (e :: l) k2 = if e.1 = k2 then some e.2 else lookupA l k2 := by
  by_cases h : e.1 = k2
  · rw [lookupA, List.find?_cons_of_pos _ (by simpa using h), if_pos h]
    rfl
  · rw [lookupA, List.find?_cons_of_neg _ (by simpa using h), if_neg h]
    rfl

theorem lookupA_filter_ne (k k2 : FPath) (h : k2 ≠ k) :
    ∀ l : List (FPath × α),
    lookupA (l.filter (fun e => decide (e.1 ≠ k))) k2 = lookupA l k2
  | [] => rfl
  | e :: l => by
    rw [List.filter_cons]
    by_cases he : e.1 = k
    · rw [if_neg (by simp [he]), lookupA_cons e l k2,
        if_neg (fun hk => h (hk.symm.trans he))]
      exact lookupA_filter_ne k k2 h l
    · rw [if_pos (by simpa using he), lookupA_cons, lookupA_cons]
      by_cases hk2 : e.1 = k2
      · rw [if_pos hk2, if_pos hk2]
      · rw [if_neg hk2, if_neg hk2]
        exact lookupA_filter_ne k k2 h l

theorem lookupA_setA (k k2 : FPath) (v : α) (l : List (FPath × α)) :
    lookupA (setA k v l) k2 = if k2 = k then some v else lookupA l k2 := by
  rw [setA, lookupA_cons]
  by_cases h : k2 = k
  · rw [if_pos h.symm, if_pos h]
  · rw [if_neg (fun hk => h hk.symm), if_neg h]
    exact lookupA_filter_ne k k2 h l

theorem lookupA_setA_self (k : FPath) (v : α) (l : List (FPath × α))
    (h : lookupA l k = some v) (p : FPath) : lookupA (setA k v l) p = lookupA l p := by
  rw [lookupA_setA]
  by_cases hp : p = k
  · rw [if_pos hp, hp, h]
  · rw [if_neg hp]

theorem append_singleton_inj {l1 l2 : FPath} {x : String}
    (h : l1 ++ [x] = l2 ++ [x]) : l1 = l2 := by
  have hlen : l1.length = l2.length := by
    have h2 := congrArg List.length h
    simpa using h2
  exact (List.append_inj h hlen).1

theorem two_ext_inj {l1 l2 : FPath} {v1 v2 x : String}
    (h : l1 ++ [v1] ++ [x] = l2 ++ [v2] ++ [x]) : l1 = l2 := by
  have h2 := append_singleton_inj h
  have hlen : l1.length = l2.length := by
    have h3 := congrArg List.length h2
    simpa using h3
  exact (List.append_inj h2 hlen).1

theorem link_one_symlinks (split : String) (fs : LinkFS) (m : BestModel) (p : FPath) :
    lookupA (link_one split fs m).symlinks p =
      if p = m.log_dir ++ ["best_model"] then some (m.log_dir ++ [m.metrics.version])
      else lookupA fs.symlinks p := by
  simp only [link_one]
  exact lookupA_setA _ _ _ _

theorem link_one_yaml (split : String) (fs : LinkFS) (m : BestModel) (p : FPath) :
    lookupA (link_one split fs m).yaml_files p =
      if p = m.log_dir ++ [m.metrics.version] ++ [split ++ "_metrics.yaml"] then some m.metrics
      else lookupA fs.yaml_files p := by
  simp only [link_one]
  rw [lookupA_setA, lookupA_setA]
  simp

theorem link_fold_preserve (split : String) :
    ∀ (bms : List BestModel) (s : LinkFS) (log : FPath) (v : String),
    (∀ m ∈ bms, m.log_dir ≠ log) →
    lookupA (link_best_models split bms s).symlinks (log ++ ["best_model"]) =
      lookupA s.symlinks (log ++ ["best_model"]) ∧
    lookupA (link_best_models split bms s).yaml_files (log ++ [v] ++ [split ++ "_metrics.yaml"]) =
      lookupA s.yaml_files (log ++ [v] ++ [split ++ "_metrics.yaml"])
  | [], _, _, _, _ => ⟨rfl, rfl⟩
  | m :: bms, s, log, v, h => by
    have hm : m.log_dir ≠ log := h m (by simp)
    have hrest : ∀ m2 ∈ bms, m2.log_dir ≠ log := fun m2 hm2 => h m2 (by simp [hm2])
    have ih := link_fold_preserve split bms (link_one split s m) log v hrest
    have hstep : link_best_models split (m :: bms) s =
        link_best_models split bms (link_one split s m) := rfl
    constructor
    · rw [hstep, ih.1, link_one_symlinks,
        if_neg (fun heq => hm (append_singleton_inj heq).symm)]
    · rw [hstep, ih.2, link_one_yaml,
        if_neg (fun heq => hm (two_ext_inj heq).symm)]

theorem link_best_models_sets (split : String) :
    ∀ (bms : List BestModel) (s : LinkFS),
    (bms.map (fun m => m.log_dir)).Nodup →
    ∀ m ∈ bms,
    lookupA (link_best_models split bms s).symlinks (m.log_dir ++ ["best_model"]) =
      some (m.log_dir ++ [m.metrics.version]) ∧
    lookupA (link_best_models split bms s).yaml_files
      (m.log_dir ++ [m.metrics.version] ++ [split ++ "_metrics.yaml"]) = some m.metrics
  | [], _, _ => by
    intro m hm
    exact absurd hm (by simp)
  | m0 :: bms, s, hnd => by
    intro m hm
    have hnd0 : m0.log_dir ∉ bms.map (fun m => m.log_dir) ∧
        (bms.map (fun m => m.log_dir)).Nodup := by
      have hnd2 := hnd
      rw [List.map_cons, List.nodup_cons] at hnd2
      exact hnd2
    have hstep : link_best_models split (m0 :: bms) s =
        link_best_models split bms (link_one split s m0) := rfl
    rcases List.mem_cons.mp hm with rfl | hm2
    · have hdiff : ∀ m2 ∈ bms, m2.log_dir ≠ m.log_dir := by
        intro m2 hm2 he
        exact hnd0.1 (List.mem_map.mpr ⟨m2, hm2, he⟩)
      have hpres := link_fold_preserve split bms (link_one split s m) m.log_dir
        m.metrics.version hdiff
      constructor
      · rw [hstep, hpres.1, link_one_symlinks, if_pos rfl]
      · rw [hstep, hpres.2, link_one_yaml, if_pos rfl]
    · rw [hstep]
      exact link_best_models_sets split bms (link_one split s m0) hnd0.2 m hm2

theorem link_fold_id (split : String) :
    ∀ (bms : List BestModel) (s : LinkFS),
    (∀ m ∈ bms, lookupA s.symlinks (m.log_dir ++ ["best_model"]) =
      some (m.log_dir ++ [m.metrics.version])) →
    ∀ p, lookupA (link_best_models split bms s).symlinks p = lookupA s.symlinks p
  | [], _, _ => fun _ => rfl
  | m :: bms, s, h => by
    intro p
    have hm := h m (by simp)
    have hone : ∀ q, lookupA (link_one split s m).symlinks q = lookupA s.symlinks q := by
      intro q
      simp only [link_one]
      exact lookupA_setA_self _ _ _ hm q
    have hrest : ∀ m2 ∈ bms,
        lookupA (link_one split s m).symlinks (m2.log_dir ++ ["best_model"]) =
          some (m2.log_dir ++ [m2.metrics.version]) := by
      intro m2 hm2
      rw [hone]
      exact h m2 (by simp [hm2])
    have hstep : link_best_models split (m :: bms) s =
        link_best_models split bms (link_one split s m) := rfl
    rw [hstep, link_fold_id split bms (link_one split s m) hrest p, hone]

/-- C5: after link_best_models runs, for every best model the best_model
symlink of its log directory points to the version directory of the selected
run (whatever link was there before), the metrics YAML file named
<split>_metrics.yaml exists in the linked directory holding the metrics of
that run, and a second run of link_best_models leaves every symlink target
unchanged (idempotence). -/
theorem claim_C5_link_best_models (split : String) (bms : List BestModel) (fs : LinkFS)
    (hnd : (bms.map (fun m => m.log_dir)).Nodup) :
    (∀ m ∈ bms,
      lookupA (link_best_models split bms fs).symlinks (m.log_dir ++ ["best_model"]) =
        some (m.log_dir ++ [m.metrics.version]) ∧
      lookupA (link_best_models split bms fs).yaml_files
        (m.log_dir ++ [m.metrics.version] ++ [split ++ "_metrics.yaml"]) = some m.metrics) ∧
    (∀ p, lookupA (link_best_models split bms (link_best_models split bms fs)).symlinks p =
      lookupA (link_best_models split bms fs).symlinks p) := by
  refine ⟨link_best_models_sets split bms fs hnd, ?_⟩
  refine link_fold_id split bms (link_best_models split bms fs) ?_
  intro m hm
  exact (link_best_models_sets split bms fs hnd m hm).1

/-- Witness for C5 at one concrete best model over an empty filesystem. -/
theorem claim_C5_witness :
    (lookupA (link_best_models "test" [m_w5] { symlinks := [], yaml_files := [] }).symlinks
      (m_w5.log_dir ++ ["best_model"]) = some (m_w5.log_dir ++ [m_w5.metrics.version])) ∧
    (lookupA (link_best_models "test" [m_w5]
        (link_best_models "test" [m_w5] { symlinks := [], yaml_files := [] })).symlinks
      (m_w5.log_dir ++ ["best_model"]) =
      lookupA (link_best_models "test" [m_w5] { symlinks := [], yaml_files := [] }).symlinks
        (m_w5.log_dir ++ ["best_model"])) := by
  have h := claim_C5_link_best_models "test" [m_w5] { symlinks := [], yaml_files := [] }
    (by simp)
  exact ⟨(h.1 m_w5 (by simp)).1, h.2 (m_w5.log_dir ++ ["best_model"])⟩

/-! ## Claim C10 -/

theorem filter_subset_mono {l1 l2 : List FPath} {p : FPath → Bool}
    (h : l1 ⊆ l2) : l1.filter p ⊆ l2.filter p := by
  intro x hx
  rcases List.mem_filter.mp hx with ⟨hm, hp⟩
  exact List.mem_filter.mpr ⟨h hm, hp⟩

theorem get_version_dirs_mono {d1 d2 : List FPath} (h : d1 ⊆ d2) (log : FPath) :
    get_version_dirs d1 log ⊆ get_version_dirs d2 log :=
  filter_subset_mono h

theorem tree_inv_rmtree {bms : List BestModel} {fs0 s : TreeFS} {c : FPath}
    (hinv : tree_inv bms fs0 s) (hc : ∃ m ∈ bms, ckpt_candidate fs0 m c) :
    tree_inv bms fs0 (rmtree c s) := by
  obtain ⟨hd, hf, hnd, hpres⟩ := hinv
  refine ⟨?_, ?_, ?_, ?_⟩
  · intro x hx
    exact hd (List.mem_filter.mp hx).1
  · intro x hx
    exact hf (List.mem_filter.mp hx).1
  · exact List.Nodup.filter _ hnd
  · intro p hp
    have hcp : ¬ (c <+: p) := by
      rcases hc with ⟨m, hm, hcand⟩
      exact hp m hm c hcand
    have hkeep : List.isPrefixOf c p = false := by
      rw [Bool.eq_false_iff]
      intro hx
      exact hcp (List.isPrefixOf_iff_prefix.mp hx)
    constructor
    · constructor
      · intro hx
        exact (hpres p hp).1.mp (List.mem_filter.mp hx).1
      · intro hx
        exact List.mem_filter.mpr ⟨(hpres p hp).1.mpr hx, by simp [hkeep]⟩
    · constructor
      · intro hx
        exact (hpres p hp).2.mp (List.mem_filter.mp hx).1
      · intro hx
        exact List.mem_filter.mpr ⟨(hpres p hp).2.mpr hx, by simp [hkeep]⟩

theorem tree_inv_fold_rmtree {bms : List BestModel} {fs0 : TreeFS} :
    ∀ (cs : List FPath) (s : TreeFS), tree_inv bms fs0 s →
    (∀ c ∈ cs, ∃ m ∈ bms, ckpt_candidate fs0 m c) →
    tree_inv bms fs0 (cs.foldl (fun t c => rmtree c t) s)
  | [], _, hinv, _ => hinv
  | c :: cs, s, hinv, hcs =>
    tree_inv_fold_rmtree cs (rmtree c s)
      (tree_inv_rmtree hinv (hcs c (by simp)))
      (fun c2 hc2 => hcs c2 (by simp [hc2]))

theorem tree_inv_remove_checkpoints {bms : List BestModel} {fs0 s : TreeFS} {m : BestModel}
    (hm : m ∈ bms) (hinv : tree_inv bms fs0 s) {v : FPath}
    (hv : v ∈ get_version_dirs fs0.dirs m.log_dir)
    (hvb : v ≠ m.log_dir ++ [m.metrics.version]) :
    tree_inv bms fs0 (remove_checkpoints_in v s) := by
  refine tree_inv_fold_rmtree _ s hinv ?_
  intro c hc
  rcases List.mem_filter.mp hc with ⟨hcd, hcond⟩
  simp only [Bool.and_eq_true, decide_eq_true_eq] at hcond
  refine ⟨m, hm, hinv.1 hcd, hcond.1.1, hcond.2, ?_, ?_⟩
  · rw [hcond.1.2]
    exact hv
  · rw [hcond.1.2]
    exact hvb

theorem tree_inv_fold_versions {bms : List BestModel} {fs0 : TreeFS} {m : BestModel}
    (hm : m ∈ bms) :
    ∀ (vs : List FPath) (s : TreeFS), tree_inv bms fs0 s →
    (∀ v ∈ vs, v ∈ get_version_dirs fs0.dirs m.log_dir ∧
      v ≠ m.log_dir ++ [m.metrics.version]) →
    tree_inv bms fs0 (vs.foldl (fun t v => remove_checkpoints_in v t) s)
  | [], _, hinv, _ => hinv
  | v :: vs, s, hinv, hvs =>
    tree_inv_fold_versions hm vs _
      (tree_inv_remove_checkpoints hm hinv (hvs v (by simp)).1 (hvs v (by simp)).2)
      (fun v2 hv2 => hvs v2 (by simp [hv2]))

theorem tree_inv_remove_unused_for {bms : List BestModel} {fs0 : TreeFS} {m : BestModel}
    (hm : m ∈ bms) (s : TreeFS) (hinv : tree_inv bms fs0 s) :
    tree_inv bms fs0 (remove_unused_for m s) := by
  simp only [remove_unused_for]
  refine tree_inv_fold_versions hm _ s hinv ?_
  intro v hv
  rw [mem_sortBy] at hv
  have hnds : (get_version_dirs s.dirs m.log_dir).Nodup :=
    List.Nodup.filter _ hinv.2.2.1
  have h2 := (List.Nodup.mem_erase_iff hnds).mp hv
  exact ⟨get_version_dirs_mono hinv.1 m.log_dir h2.2, h2.1⟩

theorem tree_inv_fold_models {bms : List BestModel} {fs0 : TreeFS} :
    ∀ (ms : List BestModel) (s : TreeFS), (∀ m ∈ ms, m ∈ bms) → tree_inv bms fs0 s →
    tree_inv bms fs0 (ms.foldl (fun t m => remove_unused_for m t) s)
  | [], _, _, hinv => hinv
  | m :: ms, s, hms, hinv =>
    tree_inv_fold_models ms _ (fun m2 hm2 => hms m2 (by simp [hm2]))
      (tree_inv_remove_unused_for (hms m (by simp)) s hinv)

theorem tree_inv_init (bms : List BestModel) (fs : TreeFS) (hnd : fs.dirs.Nodup) :
    tree_inv bms fs fs :=
  ⟨fun _ h => h, fun _ h => h, hnd, fun _ _ => ⟨Iff.rfl, Iff.rfl⟩⟩

theorem prefix_comparable {l1 l2 p : FPath} (h1 : l1 <+: p) (h2 : l2 <+: p) :
    l1 <+: l2 ∨ l2 <+: l1 := by
  rcases le_total l1.length l2.length with h | h
  · exact Or.inl (List.prefix_of_prefix_length_le h1 h2 h)
  · exact Or.inr (List.prefix_of_prefix_length_le h2 h1 h)

theorem prefix_eq_of_length_eq {l1 l2 p : FPath} (h1 : l1 <+: p) (h2 : l2 <+: p)
    (h : l1.length = l2.length) : l1 = l2 :=
  (List.prefix_of_prefix_length_le h1 h2 (le_of_eq h)).eq_of_length h

theorem nameOf_append_singleton (l : FPath) (x : String) : nameOf (l ++ [x]) = x :=
  List.getLastD_concat _ _ _

theorem best_not_below_candidate {bms : List BestModel}
    (hsep : bms.Pairwise (fun m1 m2 =>
      ¬ (m1.log_dir <+: m2.log_dir) ∧ ¬ (m2.log_dir <+: m1.log_dir)))
    {fs : TreeFS} {m : BestModel} (hm : m ∈ bms) {p : FPath}
    (hp : (m.log_dir ++ [m.metrics.version]) <+: p ∨ (m.log_dir ++ ["best_model"]) <+: p) :
    ∀ m2 ∈ bms, ∀ c, ckpt_candidate fs m2 c → ¬ (c <+: p) := by
  intro m2 hm2 c hcand hcp
  obtain ⟨_, _, _, hcv, hcvb⟩ := hcand
  have hvcond := List.mem_filter.mp hcv
  simp only [Bool.and_eq_true, decide_eq_true_eq] at hvcond
  obtain ⟨_, ⟨hvne, hvpar⟩, hvname⟩ := hvcond
  have hvp : parentOf c <+: p := (List.dropLast_prefix c).trans hcp
  have hvlen : (parentOf c).length = m2.log_dir.length + 1 := by
    have hlp : (parentOf (parentOf c)).length = m2.log_dir.length := congrArg List.length hvpar
    have hdrop : (parentOf (parentOf c)).length = (parentOf c).length - 1 :=
      List.length_dropLast _
    have hpos : 0 < (parentOf c).length := List.length_pos.mpr hvne
    omega
  have hlog2v : m2.log_dir <+: parentOf c := by
    rw [← hvpar]
    exact List.dropLast_prefix _
  have hsymm : Symmetric (fun m1 m2 : BestModel =>
      ¬ (m1.log_dir <+: m2.log_dir) ∧ ¬ (m2.log_dir <+: m1.log_dir)) :=
    fun _ _ h => ⟨h.2, h.1⟩
  have cross : m.log_dir <+: p → False := by
    intro hl1
    have hl2 : m2.log_dir <+: p := hlog2v.trans hvp
    by_cases hmm : m = m2
    · subst hmm
      rcases hp with hbest | hlink
      · have heq : m.log_dir ++ [m.metrics.version] = parentOf c :=
          prefix_eq_of_length_eq hbest hvp (by simp [hvlen])
        exact hcvb heq.symm
      · have heq : m.log_dir ++ ["best_model"] = parentOf c :=
          prefix_eq_of_length_eq hlink hvp (by simp [hvlen])
        exact hvname (by rw [← heq, nameOf_append_singleton])
    · have hR := List.Pairwise.forall hsymm hsep hm hm2 hmm
      rcases prefix_comparable hl1 hl2 with h | h
      · exact hR.1 h
      · exact hR.2 h
  rcases hp with hbest | hlink
  · exact cross ((List.prefix_append _ _).trans hbest)
  · exact cross ((List.prefix_append _ _).trans hlink)

/-- C10 as stated is false on reachable nested layouts: with tfevents files
in a/version_0 and in a/version_1/checkpoints/v5, both a and
a/version_1/checkpoints are discovered as log directories; while processing
the best model of a (best run version_0), remove_unused_checkpoints rmtrees
the checkpoint directory a/version_1/checkpoints of the non-best version
directory a/version_1 and thereby deletes the other best model's selected
best-run version directory a/version_1/checkpoints/v5. -/
theorem claim_C10_counterexample :
    (m_c10b.log_dir ++ [m_c10b.metrics.version]) ∈ fs_c10.dirs ∧
    (m_c10b.log_dir ++ [m_c10b.metrics.version]) ∉
      (remove_unused_checkpoints [m_c10a, m_c10b] fs_c10).dirs := by
  decide

/-- C10 amended: when no best model's log directory is nested inside
another's (and the directory list is duplicate-free), the claim holds:
remove_unused_checkpoints removes only material below directories whose
names contain "checkpoint" lying directly inside version directories other
than the best version of some model; every path below no such candidate —
in particular everything below the best version directory and below the
best_model directory of every model — is unchanged. -/
theorem claim_C10_remove_unused_checkpoints (bms : List BestModel) (fs : TreeFS)
    (hnd : fs.dirs.Nodup)
    (hsep : bms.Pairwise (fun m1 m2 =>
      ¬ (m1.log_dir <+: m2.log_dir) ∧ ¬ (m2.log_dir <+: m1.log_dir))) :
    (∀ p, p ∈ (remove_unused_checkpoints bms fs).dirs → p ∈ fs.dirs) ∧
    (∀ p, p ∈ (remove_unused_checkpoints bms fs).files → p ∈ fs.files) ∧
    (∀ p, (∀ m ∈ bms, ∀ c, ckpt_candidate fs m c → ¬ (c <+: p)) →
      ((p ∈ (remove_unused_checkpoints bms fs).dirs ↔ p ∈ fs.dirs) ∧
       (p ∈ (remove_unused_checkpoints bms fs).files ↔ p ∈ fs.files))) ∧
    (∀ m ∈ bms, ∀ p,
      ((m.log_dir ++ [m.metrics.version]) <+: p ∨ (m.log_dir ++ ["best_model"]) <+: p) →
      ((p ∈ (remove_unused_checkpoints bms fs).dirs ↔ p ∈ fs.dirs) ∧
       (p ∈ (remove_unused_checkpoints bms fs).files ↔ p ∈ fs.files))) := by
  have hinv : tree_inv bms fs (remove_unused_checkpoints bms fs) :=
    tree_inv_fold_models bms fs (fun _ h => h) (tree_inv_init bms fs hnd)
  obtain ⟨hd, hf, _, hpres⟩ := hinv
  refine ⟨fun p hp => hd hp, fun p hp => hf hp, fun p hp => hpres p hp, ?_⟩
  intro m hm p hp
  exact hpres p (best_not_below_candidate hsep hm hp)

/-- Witness for C10: one model, a filesystem with a best version directory, a
second version directory holding a checkpoints directory, and a file below
the best run that survives. -/
theorem claim_C10_witness :
    ((["exp", "version_0", "events.out"] : FPath) ∈
        (remove_unused_checkpoints [m_w10] fs_w10).dirs ↔
      (["exp", "version_0", "events.out"] : FPath) ∈ fs_w10.dirs) ∧
    ((["exp", "version_0", "events.out"] : FPath) ∈
        (remove_unused_checkpoints [m_w10] fs_w10).files ↔
      (["exp", "version_0", "events.out"] : FPath) ∈ fs_w10.files) :=
  (claim_C10_remove_unused_checkpoints [m_w10] fs_w10 (by decide) (by simp)).2.2.2
    m_w10 (by simp) ["exp", "version_0", "events.out"] (Or.inl (by decide))
